import Mathlib

/-!
Verification of the context-server tool adapter
(crates/agent/src/context_server_tool.rs).

The development shallowly embeds the data model and the three pieces of
logic the design document pins down:

* the confirmation-policy resolver (`ContextServerTool.needs_confirmation`),
* the response normalizer (the loop inside `ContextServerTool.run` that
  folds the remote reply's content parts into one unified content value),
* the invocation orchestration of `ContextServerTool.run` (connection
  lookup, argument conversion, error propagation) and the
  `input_schema` accessor.

Rust `HashMap`s keyed by strings are embedded as association lists with
`List.lookup`; `serde_json::Value` is embedded as the inductive `Json`;
the external schema adaptation (`adapt_schema_to_format`, a collaborator
from another crate) is a universally quantified parameter
`adapt : Json → Except String Json`, matching its in-place
fallible-rewrite signature.
-/

/-- Embedding of `serde_json::Value`. -/
inductive Json where
  | null : Json
  | bool (b : Bool) : Json
  | num (n : Int) : Json
  | str (s : String) : Json
  | arr (items : List Json) : Json
  | obj (fields : List (String × Json)) : Json
  deriving Repr

/-- True exactly on `Json.obj` values (Rust: `serde_json::Value::Object`). -/
def Json.isObj : Json → Bool
  | .obj _ => true
  | _ => false

/-- Embedding of `context_server::types::Tool`: name, optional
description, declared input schema. -/
structure McpTool where
  name : String
  description : Option String
  input_schema : Json

/-- Embedding of `ZedToolConfirmationSettings`: the per-server
confirmation policy record, with a tri-state server default and a
per-tool override map (`HashMap<String, bool>` as an association list). -/
structure ZedToolConfirmationSettings where
  default_needs_confirmation : Option Bool
  tools : List (String × Bool)

/-- The slice of `AssistantSettings` read by the adapter. -/
structure AssistantSettings where
  always_allow_tool_actions : Bool

/-- Embedding of `gpui::Size` (only `Size::default()` is ever used). -/
structure Size where
  width : Nat
  height : Nat
  deriving Repr

/-- Rust `Size::default()`. -/
def Size.default : Size := ⟨0, 0⟩

/-- Embedding of `LanguageModelImage { source, size }`; the image bytes
are kept as the string payload the protocol delivered (`data.into()`). -/
structure LanguageModelImage where
  source : String
  size : Size
  deriving Repr

/-- Embedding of `context_server::types::ToolResponseContent`: one part
of a remote invocation's reply. -/
inductive ToolResponseContent where
  | text (text : String) : ToolResponseContent
  | image (data : String) (mime_type : String) : ToolResponseContent
  | resource : ToolResponseContent
  deriving Repr

/-- Embedding of `LanguageModelToolResultContent` (the intermediate
unified content; the source matches all three variants). -/
inductive LmToolResultContent where
  | text (s : String) : LmToolResultContent
  | image (img : LanguageModelImage) : LmToolResultContent
  | wrappedText (text : String) : LmToolResultContent
  deriving Repr

/-- Embedding of `assistant_tool::ToolResultContent`. -/
inductive AssistantToolResultContent where
  | text (s : String) : AssistantToolResultContent
  | image (img : LanguageModelImage) : AssistantToolResultContent
  deriving Repr

/-- Embedding of `ToolResultOutput { content, output }`. -/
structure ToolResultOutput where
  content : AssistantToolResultContent
  output : Option Json

/-- Embedding of the remote reply (`response.content` is all the source
reads from it). -/
structure ToolResponse where
  content : List ToolResponseContent

/-- A live protocol client: `protocol.run_tool(name, arguments)` awaited
to a reply or a transport/remote failure. -/
def RemoteProtocol : Type :=
  String → Option (List (String × Json)) → Except String ToolResponse

/-- A running context server; `client` is `None` while the handshake is
incomplete (`server.client()`). -/
structure RunningServer where
  client : Option RemoteProtocol

/-- The slice of `ContextServerStore` the adapter reads: per-server
confirmation settings and the currently running connections, both keyed
by server id. -/
structure ContextServerStore where
  confirmations : List (String × ZedToolConfirmationSettings)
  running : List (String × RunningServer)

/-- Embedding of `ContextServerStore::get_confirmation_settings`. -/
def ContextServerStore.get_confirmation_settings
    (store : ContextServerStore) (server_id : String) :
    Option ZedToolConfirmationSettings :=
  store.confirmations.lookup server_id

/-- Embedding of `ContextServerStore::get_running_server`. -/
def ContextServerStore.get_running_server
    (store : ContextServerStore) (server_id : String) :
    Option RunningServer :=
  store.running.lookup server_id

/-- Embedding of `ContextServerTool { store, server_id, tool }`. -/
structure ContextServerTool where
  store : ContextServerStore
  server_id : String
  tool : McpTool

/-- Embedding of `ContextServerTool::needs_confirmation` (lines
350–375).  The `input` argument is the unused `_input`; the global
`AssistantSettings` snapshot is passed explicitly in place of reading it
from the app context. -/
def ContextServerTool.needs_confirmation
    (self : ContextServerTool) (_input : Json)
    (settings : AssistantSettings) : Bool :=
  if settings.always_allow_tool_actions then
    false
  else
    match self.store.get_confirmation_settings self.server_id with
    | some confirmation_settings =>
      match confirmation_settings.tools.lookup self.tool.name with
      | some specific_confirmation => specific_confirmation
      | none => confirmation_settings.default_needs_confirmation.getD true
    | none => true

/-- The canonical empty-object schema
`{"type": "object", "properties": []}` built by `input_schema`. -/
def emptyObjectSchema : Json :=
  Json.obj [("type", Json.str "object"), ("properties", Json.arr [])]

/-- Embedding of `ContextServerTool::input_schema` (lines 377–389).
`adapt` stands for `assistant_tool::adapt_schema_to_format` applied at
the caller's requested format: a fallible in-place rewrite of the
schema, exposed here as `Json → Except String Json`. -/
def ContextServerTool.input_schema
    (self : ContextServerTool) (adapt : Json → Except String Json) :
    Except String Json :=
  match adapt self.tool.input_schema with
  | .error e => .error e
  | .ok schema =>
    .ok (match schema with
      | .null => emptyObjectSchema
      | .obj [] => emptyObjectSchema
      | s => s)

/-- The placeholder line pushed for an image part whose MIME type is not
`image/png` (line 448). -/
def nonPngPlaceholder (mime_type : String) : String :=
  "Tool returned an image of type " ++ mime_type ++
    " (content not displayed in this view)"

/-- The normalizer loop of `run` (lines 431–455): fold the reply's
content parts into the captured image and the running text buffer. -/
def processParts :
    List ToolResponseContent → Option LanguageModelImage → List String →
    Option LanguageModelImage × List String
  | [], captured_image, text_parts => (captured_image, text_parts)
  | part :: rest, captured_image, text_parts =>
    match part with
    | .text t => processParts rest captured_image (text_parts ++ [t])
    | .image data mime_type =>
      if mime_type == "image/png" then
        if captured_image.isNone then
          processParts rest (some ⟨data, Size.default⟩) text_parts
        else
          processParts rest captured_image text_parts
      else
        processParts rest captured_image
          (text_parts ++ [nonPngPlaceholder mime_type])
    | .resource => processParts rest captured_image text_parts

/-- The normalizer of `run` (lines 428–461): loop over the parts, then
select `Image(captured)` if a PNG was captured, else `Text` of the
newline-joined buffer. -/
def normalizeResponse (parts : List ToolResponseContent) :
    LmToolResultContent :=
  let result := processParts parts none []
  match result.1 with
  | some image => .image image
  | none => .text (String.intercalate "\n" result.2)

/-- The final conversion of `run` (lines 463–473) from the intermediate
content to the assistant-facing content. -/
def toAssistantContent : LmToolResultContent → AssistantToolResultContent
  | .text s => .text s
  | .image img => .image img
  | .wrappedText wt => .text wt

/-- The argument conversion of `run` (lines 415–419): a JSON object's
fields become the argument mapping, any other shape becomes no
arguments. -/
def argumentsOfInput : Json → Option (List (String × Json))
  | .obj map => some map
  | _ => none

/-- Embedding of `ContextServerTool::run` (lines 395–481): resolve the
running connection (else "Context server not found"), require an
initialized client (else "Context server not initialized"), convert the
arguments, dispatch, propagate remote failure unchanged, and normalize
the reply. -/
def ContextServerTool.run (self : ContextServerTool) (input : Json) :
    Except String ToolResultOutput :=
  match self.store.get_running_server self.server_id with
  | none => .error "Context server not found"
  | some server =>
    match server.client with
    | none => .error "Context server not initialized"
    | some protocol =>
      match protocol self.tool.name (argumentsOfInput input) with
      | .error e => .error e
      | .ok response =>
        .ok { content := toAssistantContent (normalizeResponse response.content),
              output := none }

/-! Spec-side characterizations of the normalizer loop, used to state
the normalization claims compositionally. -/

/-- True on image parts whose MIME type is exactly `image/png`. -/
def isPngImage : ToolResponseContent → Bool
  | .image _ mime_type => mime_type == "image/png"
  | _ => false

/-- True on resource parts. -/
def ToolResponseContent.isResource : ToolResponseContent → Bool
  | .resource => true
  | _ => false

/-- The image the loop captures: the first part that is a PNG image, as
a `LanguageModelImage` with default size. -/
def firstPngImage : List ToolResponseContent → Option LanguageModelImage
  | [] => none
  | .image data mime_type :: rest =>
    if mime_type == "image/png" then some ⟨data, Size.default⟩
    else firstPngImage rest
  | _ :: rest => firstPngImage rest

/-- The entries of the text buffer, in order: each text part's text, and
a placeholder for each non-PNG image part. -/
def textPieces : List ToolResponseContent → List String
  | [] => []
  | .text t :: rest => t :: textPieces rest
  | .image _ mime_type :: rest =>
    if mime_type == "image/png" then textPieces rest
    else nonPngPlaceholder mime_type :: textPieces rest
  | .resource :: rest => textPieces rest

/-! Helper lemmas relating the normalizer loop to its spec-side
characterization. -/

/-- The loop's final state: the captured image is the initial one if
already present, else the first PNG of the remaining parts; the text
buffer is the initial buffer followed by the parts' text pieces. -/
theorem processParts_spec (parts : List ToolResponseContent) :
    ∀ (img : Option LanguageModelImage) (texts : List String),
    processParts parts img texts =
      ((match img with
        | some i => some i
        | none => firstPngImage parts),
       texts ++ textPieces parts) := by
  induction parts with
  | nil =>
    intro img texts
    cases img <;> simp [processParts, firstPngImage, textPieces]
  | cons part rest ih =>
    intro img texts
    cases part with
    | text t =>
      cases img <;>
        simp [processParts, firstPngImage, textPieces, ih]
    | image data mime_type =>
      by_cases h : (mime_type == "image/png") = true
      · cases img with
        | none =>
          simp [processParts, h, firstPngImage, textPieces, ih, Option.isNone]
        | some i =>
          simp [processParts, h, firstPngImage, textPieces, ih, Option.isNone]
      · rw [Bool.not_eq_true] at h
        cases img <;>
          simp [processParts, h, firstPngImage, textPieces, ih]
    | resource =>
      cases img <;>
        simp [processParts, firstPngImage, textPieces, ih]

/-- The normalizer, characterized compositionally. -/
theorem normalizeResponse_eq (parts : List ToolResponseContent) :
    normalizeResponse parts =
      (match firstPngImage parts with
       | some i => .image i
       | none => .text (String.intercalate "\n" (textPieces parts))) := by
  unfold normalizeResponse
  rw [processParts_spec]
  cases firstPngImage parts <;> simp

/-- The first PNG of an appended list. -/
theorem firstPngImage_append (xs ys : List ToolResponseContent) :
    firstPngImage (xs ++ ys) =
      (match firstPngImage xs with
       | some i => some i
       | none => firstPngImage ys) := by
  induction xs with
  | nil => simp [firstPngImage]
  | cons part rest ih =>
    cases part with
    | text t => simpa [firstPngImage] using ih
    | image data mime_type =>
      by_cases h : (mime_type == "image/png") = true
      · simp [firstPngImage, h]
      · rw [Bool.not_eq_true] at h
        simpa [firstPngImage, h] using ih
    | resource => simpa [firstPngImage] using ih

/-- The text pieces of an appended list. -/
theorem textPieces_append (xs ys : List ToolResponseContent) :
    textPieces (xs ++ ys) = textPieces xs ++ textPieces ys := by
  induction xs with
  | nil => simp [textPieces]
  | cons part rest ih =>
    cases part with
    | text t => simp [textPieces, ih]
    | image data mime_type =>
      by_cases h : (mime_type == "image/png") = true
      · simp [textPieces, h, ih]
      · rw [Bool.not_eq_true] at h
        simp [textPieces, h, ih]
    | resource => simp [textPieces, ih]

/-- A list with no PNG image part captures no image. -/
theorem firstPngImage_eq_none (xs : List ToolResponseContent)
    (h : ∀ p ∈ xs, isPngImage p = false) :
    firstPngImage xs = none := by
  induction xs with
  | nil => simp [firstPngImage]
  | cons part rest ih =>
    have hrest : ∀ p ∈ rest, isPngImage p = false := by
      intro p hp
      exact h p (List.mem_cons_of_mem _ hp)
    cases part with
    | text t => simpa [firstPngImage] using ih hrest
    | image data mime_type =>
      have hmime : (mime_type == "image/png") = false := by
        simpa [isPngImage] using h _ (List.mem_cons_self _ _)
      simpa [firstPngImage, hmime] using ih hrest
    | resource => simpa [firstPngImage] using ih hrest

/-- A list of only text parts captures no image. -/
theorem firstPngImage_map_text (ts : List String) :
    firstPngImage (ts.map ToolResponseContent.text) = none := by
  induction ts with
  | nil => simp [firstPngImage]
  | cons t rest ih => simpa [firstPngImage] using ih

/-- The text pieces of a list of only text parts are the texts. -/
theorem textPieces_map_text (ts : List String) :
    textPieces (ts.map ToolResponseContent.text) = ts := by
  induction ts with
  | nil => simp [textPieces]
  | cons t rest ih => simp [textPieces, ih]

/-- Dropping resource parts does not change the captured image. -/
theorem firstPngImage_filter_resources (parts : List ToolResponseContent) :
    firstPngImage (parts.filter fun p => !p.isResource) =
      firstPngImage parts := by
  induction parts with
  | nil => simp
  | cons part rest ih =>
    cases part with
    | text t =>
      rw [List.filter_cons_of_pos rfl]
      simp [firstPngImage, ih]
    | image data mime_type =>
      rw [List.filter_cons_of_pos rfl]
      simp [firstPngImage, ih]
    | resource =>
      rw [List.filter_cons_of_neg (by decide)]
      simp [firstPngImage, ih]

/-- Dropping resource parts does not change the text pieces. -/
theorem textPieces_filter_resources (parts : List ToolResponseContent) :
    textPieces (parts.filter fun p => !p.isResource) = textPieces parts := by
  induction parts with
  | nil => simp
  | cons part rest ih =>
    cases part with
    | text t =>
      rw [List.filter_cons_of_pos rfl]
      simp [textPieces, ih]
    | image data mime_type =>
      rw [List.filter_cons_of_pos rfl]
      simp [textPieces, ih]
    | resource =>
      rw [List.filter_cons_of_neg (by decide)]
      simp [textPieces, ih]

/-- C1: the confirmation check follows the strict precedence order of
§4.1: a true global always-allow flag yields `false` regardless of
everything else; otherwise an explicit per-tool override is returned
verbatim in both directions, winning over the server default; otherwise
the server default is returned when set; otherwise (default unset, or no
policy record at all) the result is `true`. -/
theorem needs_confirmation_precedence :
    (∀ (t : ContextServerTool) (input : Json) (s : AssistantSettings),
        s.always_allow_tool_actions = true →
        t.needs_confirmation input s = false)
  ∧ (∀ (t : ContextServerTool) (input : Json) (s : AssistantSettings),
        s.always_allow_tool_actions = false →
        t.store.get_confirmation_settings t.server_id = none →
        t.needs_confirmation input s = true)
  ∧ (∀ (t : ContextServerTool) (input : Json) (s : AssistantSettings)
        (cs : ZedToolConfirmationSettings) (b : Bool),
        s.always_allow_tool_actions = false →
        t.store.get_confirmation_settings t.server_id = some cs →
        cs.tools.lookup t.tool.name = some b →
        t.needs_confirmation input s = b)
  ∧ (∀ (t : ContextServerTool) (input : Json) (s : AssistantSettings)
        (cs : ZedToolConfirmationSettings) (d : Bool),
        s.always_allow_tool_actions = false →
        t.store.get_confirmation_settings t.server_id = some cs →
        cs.tools.lookup t.tool.name = none →
        cs.default_needs_confirmation = some d →
        t.needs_confirmation input s = d)
  ∧ (∀ (t : ContextServerTool) (input : Json) (s : AssistantSettings)
        (cs : ZedToolConfirmationSettings),
        s.always_allow_tool_actions = false →
        t.store.get_confirmation_settings t.server_id = some cs →
        cs.tools.lookup t.tool.name = none →
        cs.default_needs_confirmation = none →
        t.needs_confirmation input s = true) := by
  refine ⟨?_, ?_, ?_, ?_, ?_⟩
  · intro t input s h
    simp [ContextServerTool.needs_confirmation, h]
  · intro t input s h hnone
    simp [ContextServerTool.needs_confirmation, h, hnone]
  · intro t input s cs b h hsome htool
    simp [ContextServerTool.needs_confirmation, h, hsome, htool]
  · intro t input s cs d h hsome htool hdefault
    simp [ContextServerTool.needs_confirmation, h, hsome, htool, hdefault]
  · intro t input s cs h hsome htool hdefault
    simp [ContextServerTool.needs_confirmation, h, hsome, htool, hdefault]

/-- Witness for C1: with the global flag false, a per-tool override of
`false` beats a server default of `true`, and an override of `true`
beats a server default of `false`. -/
theorem needs_confirmation_precedence_witness :
    ContextServerTool.needs_confirmation
        ⟨⟨[("srv", ⟨some true, [("t1", false)]⟩)], []⟩, "srv",
          ⟨"t1", none, Json.null⟩⟩ Json.null ⟨false⟩ = false
  ∧ ContextServerTool.needs_confirmation
        ⟨⟨[("srv", ⟨some false, [("t1", true)]⟩)], []⟩, "srv",
          ⟨"t1", none, Json.null⟩⟩ Json.null ⟨false⟩ = true := by
  constructor
  · exact needs_confirmation_precedence.2.2.1 _ Json.null ⟨false⟩
      ⟨some true, [("t1", false)]⟩ false rfl rfl rfl
  · exact needs_confirmation_precedence.2.2.1 _ Json.null ⟨false⟩
      ⟨some false, [("t1", true)]⟩ true rfl rfl rfl

/-- C10: the confirmation check is independent of the JSON input it is
passed: for a fixed configuration state it returns the same result on
any two inputs. -/
theorem needs_confirmation_ignores_input :
    ∀ (t : ContextServerTool) (s : AssistantSettings) (input1 input2 : Json),
      t.needs_confirmation input1 s = t.needs_confirmation input2 s := by
  intro t s input1 input2
  rfl

/-- C2: the normalizer produces exactly one result variant: `Image` of
the captured PNG when one was captured (the text buffer is not part of
the result), else `Text` of the newline-joined buffer, even when empty;
in particular the empty part list yields `Text ""` and never an error. -/
theorem normalize_final_selection :
    (∀ (parts : List ToolResponseContent) (img : LanguageModelImage),
        firstPngImage parts = some img →
        normalizeResponse parts = LmToolResultContent.image img)
  ∧ (∀ (parts : List ToolResponseContent),
        firstPngImage parts = none →
        normalizeResponse parts =
          LmToolResultContent.text
            (String.intercalate "\n" (textPieces parts)))
  ∧ normalizeResponse [] = LmToolResultContent.text "" := by
  refine ⟨?_, ?_, ?_⟩
  · intro parts img h
    rw [normalizeResponse_eq, h]
  · intro parts h
    rw [normalizeResponse_eq, h]
  · rfl

/-- Witness for C2: a PNG after some text is the whole result, and a
text-only reply is the joined buffer. -/
theorem normalize_final_selection_witness :
    normalizeResponse
        [ToolResponseContent.text "x",
         ToolResponseContent.image "imgdata" "image/png"] =
      LmToolResultContent.image ⟨"imgdata", Size.default⟩
  ∧ normalizeResponse [ToolResponseContent.text "x"] =
      LmToolResultContent.text
        (String.intercalate "\n" (textPieces [ToolResponseContent.text "x"])) :=
  ⟨normalize_final_selection.1 _ _ rfl, normalize_final_selection.2.1 _ rfl⟩

/-- C3: only the first part that is a PNG image is captured; whatever
comes after it — including further images of any MIME type — does not
affect the result, which is `Image` of the first PNG's bytes. -/
theorem normalize_first_png_wins :
    ∀ (pre : List ToolResponseContent) (data : String)
      (post : List ToolResponseContent),
      (∀ p ∈ pre, isPngImage p = false) →
      normalizeResponse
          (pre ++ ToolResponseContent.image data "image/png" :: post) =
        LmToolResultContent.image ⟨data, Size.default⟩ := by
  intro pre data post h
  rw [normalizeResponse_eq, firstPngImage_append, firstPngImage_eq_none pre h]
  simp [firstPngImage]

/-- Witness for C3: two PNG images normalize to `Image` of the first
one's bytes, without error. -/
theorem normalize_first_png_wins_witness :
    normalizeResponse
        [ToolResponseContent.image "bytes1" "image/png",
         ToolResponseContent.image "bytes2" "image/png"] =
      LmToolResultContent.image ⟨"bytes1", Size.default⟩ :=
  normalize_first_png_wins [] "bytes1"
    [ToolResponseContent.image "bytes2" "image/png"] (by simp)

/-- C4: an image part whose MIME type is not exactly `image/png` is
never captured as the image result; it behaves exactly like a text part
holding the placeholder line that names its MIME type.  A JPEG followed
by the text "hello" normalizes to text holding both the placeholder and
"hello", with no image captured. -/
theorem normalize_non_png_degrades_to_text :
    (∀ (pre : List ToolResponseContent) (data mime_type : String)
        (post : List ToolResponseContent),
        (mime_type == "image/png") = false →
        normalizeResponse
            (pre ++ ToolResponseContent.image data mime_type :: post) =
          normalizeResponse
            (pre ++ ToolResponseContent.text (nonPngPlaceholder mime_type)
              :: post))
  ∧ normalizeResponse
        [ToolResponseContent.image "jpegbytes" "image/jpeg",
         ToolResponseContent.text "hello"] =
      LmToolResultContent.text
        ("Tool returned an image of type image/jpeg (content not displayed in this view)\nhello") := by
  constructor
  · intro pre data mime_type post h
    rw [normalizeResponse_eq, normalizeResponse_eq,
        firstPngImage_append, firstPngImage_append,
        textPieces_append, textPieces_append]
    simp [firstPngImage, textPieces, h]
  · rfl

/-- Witness for C4: a lone JPEG image normalizes exactly as its
placeholder text does. -/
theorem normalize_non_png_degrades_to_text_witness :
    normalizeResponse [ToolResponseContent.image "b" "image/jpeg"] =
      normalizeResponse
        [ToolResponseContent.text (nonPngPlaceholder "image/jpeg")] :=
  normalize_non_png_degrades_to_text.1 [] "b" "image/jpeg" [] rfl

/-- C5: text parts are concatenated in their original order, joined by a
single newline between consecutive entries; in particular
`[Text "a", Text "b"]` yields `Text "a\nb"`. -/
theorem normalize_text_concatenation :
    (∀ (ts : List String),
        normalizeResponse (ts.map ToolResponseContent.text) =
          LmToolResultContent.text (String.intercalate "\n" ts))
  ∧ normalizeResponse
        [ToolResponseContent.text "a", ToolResponseContent.text "b"] =
      LmToolResultContent.text "a\nb" := by
  constructor
  · intro ts
    rw [normalizeResponse_eq, firstPngImage_map_text, textPieces_map_text]
  · rfl

/-- C6: resource parts are ignored entirely: removing all resource parts
from a reply yields the same normalized result as the original reply. -/
theorem normalize_ignores_resources :
    ∀ (parts : List ToolResponseContent),
      normalizeResponse (parts.filter fun p => !p.isResource) =
        normalizeResponse parts := by
  intro parts
  rw [normalizeResponse_eq, normalizeResponse_eq,
      firstPngImage_filter_resources, textPieces_filter_resources]

/-- C7: after a successful format adaptation, a `null` or empty-object
declared schema yields the canonical empty-object schema
`{"type": "object", "properties": []}`; any other adapted value is
returned unchanged in structure. -/
theorem input_schema_empty_substitution :
    (∀ (t : ContextServerTool) (adapt : Json → Except String Json),
        adapt t.tool.input_schema = .ok Json.null →
        t.input_schema adapt = .ok emptyObjectSchema)
  ∧ (∀ (t : ContextServerTool) (adapt : Json → Except String Json),
        adapt t.tool.input_schema = .ok (Json.obj []) →
        t.input_schema adapt = .ok emptyObjectSchema)
  ∧ (∀ (t : ContextServerTool) (adapt : Json → Except String Json)
        (v : Json),
        adapt t.tool.input_schema = .ok v →
        v ≠ Json.null → v ≠ Json.obj [] →
        t.input_schema adapt = .ok v) := by
  refine ⟨?_, ?_, ?_⟩
  · intro t adapt h
    unfold ContextServerTool.input_schema
    rw [h]
  · intro t adapt h
    unfold ContextServerTool.input_schema
    rw [h]
  · intro t adapt v h hnull hempty
    unfold ContextServerTool.input_schema
    rw [h]
    cases v with
    | null => exact absurd rfl hnull
    | bool b => rfl
    | num n => rfl
    | str s => rfl
    | arr items => rfl
    | obj fields =>
      cases fields with
      | nil => exact absurd rfl hempty
      | cons f rest => rfl

/-- Witness for C7: an identity adaptation of a non-empty object schema
is passed through unchanged. -/
theorem input_schema_empty_substitution_witness :
    ContextServerTool.input_schema
        ⟨⟨[], []⟩, "srv", ⟨"t1", none, Json.obj [("type", Json.str "string")]⟩⟩
        (fun j => .ok j) =
      .ok (Json.obj [("type", Json.str "string")]) :=
  input_schema_empty_substitution.2.2 _ _ _ rfl
    (fun h => Json.noConfusion h)
    (fun h => by injection h with h2; exact List.noConfusion h2)

/-- C8: an invocation whose server reference has no running connection
fails with the "server not found" condition; a connection that exists
but has not completed initialization fails with the distinct "not
initialized" condition.  The embedded `run` is a total function, so both
failures are immediate — no retry, no queue, no hang. -/
theorem run_connection_failure :
    (∀ (t : ContextServerTool) (input : Json),
        t.store.get_running_server t.server_id = none →
        t.run input = .error "Context server not found")
  ∧ (∀ (t : ContextServerTool) (input : Json) (server : RunningServer),
        t.store.get_running_server t.server_id = some server →
        server.client = none →
        t.run input = .error "Context server not initialized")
  ∧ ("Context server not found" : String) ≠ "Context server not initialized" := by
  refine ⟨?_, ?_, ?_⟩
  · intro t input h
    simp [ContextServerTool.run, h]
  · intro t input server h hclient
    simp [ContextServerTool.run, h, hclient]
  · decide

/-- Witness for C8: a store with no running server yields the not-found
failure; a running server without a client yields the not-initialized
failure. -/
theorem run_connection_failure_witness :
    ContextServerTool.run
        ⟨⟨[], []⟩, "srv", ⟨"t1", none, Json.null⟩⟩ Json.null =
      .error "Context server not found"
  ∧ ContextServerTool.run
        ⟨⟨[], [("srv", ⟨none⟩)]⟩, "srv", ⟨"t1", none, Json.null⟩⟩ Json.null =
      .error "Context server not initialized" :=
  ⟨run_connection_failure.1 _ Json.null rfl,
   run_connection_failure.2.1 _ Json.null ⟨none⟩ rfl rfl⟩

/-- C9: a JSON object input's key/value pairs become the call's argument
mapping; every other JSON shape yields no arguments, and the invocation
proceeds (succeeding when the remote call succeeds) instead of failing
with a validation error. -/
theorem run_argument_leniency :
    (∀ (fields : List (String × Json)),
        argumentsOfInput (Json.obj fields) = some fields)
  ∧ (∀ (input : Json), input.isObj = false → argumentsOfInput input = none)
  ∧ (∀ (t : ContextServerTool) (input : Json) (server : RunningServer)
        (protocol : RemoteProtocol) (response : ToolResponse),
        t.store.get_running_server t.server_id = some server →
        server.client = some protocol →
        input.isObj = false →
        protocol t.tool.name none = .ok response →
        t.run input =
          .ok { content := toAssistantContent (normalizeResponse response.content),
                output := none }) := by
  refine ⟨?_, ?_, ?_⟩
  · intro fields
    rfl
  · intro input h
    cases input <;> simp_all [argumentsOfInput, Json.isObj]
  · intro t input server protocol response h hclient hinput hprotocol
    have harg : argumentsOfInput input = none := by
      cases input <;> simp_all [argumentsOfInput, Json.isObj]
    simp [ContextServerTool.run, h, hclient, harg, hprotocol]

/-- Witness for C9: an array input against a live, initialized server
whose protocol replies with an empty part list succeeds with empty
text — no validation error. -/
theorem run_argument_leniency_witness :
    ContextServerTool.run
        ⟨⟨[], [("srv", ⟨some fun _ _ => Except.ok ⟨[]⟩⟩)]⟩, "srv",
          ⟨"t1", none, Json.null⟩⟩ (Json.arr []) =
      Except.ok ⟨AssistantToolResultContent.text "", none⟩ :=
  run_argument_leniency.2.2 _ (Json.arr [])
    ⟨some fun _ _ => Except.ok ⟨[]⟩⟩ (fun _ _ => Except.ok ⟨[]⟩) ⟨[]⟩
    rfl rfl rfl rfl
